/-
Verification of the Belgian bank CSV import pipeline.

The development shallowly embeds the CSV parsing and normalization code
(services/csvParser.js) and the upload orchestration route (routes/upload.js)
together with the storage behaviour implied by the SQL schema (unique key
unique_transaction and table import_logs).

Modelling conventions:
  - JavaScript strings are Lean String values; helper functions reproduce the
    exact semantics of the JS operations used by the source (String.prototype
    trim restricted to ASCII whitespace, parseInt, parseFloat on the character
    set reachable after cleaning, split, padStart, startsWith, the specific
    regular expressions of the source).
  - JavaScript numbers produced by parseFloat are modelled as exact decimal
    values (an integer numerator with a power-of-ten denominator), since every
    number the pipeline produces is a finite decimal; Decimal.toRat gives the
    rational value.
  - The Papa.parse tokenizer is an external library dependency (not part of
    this repository), so the parser is embedded from the point the source
    consumes its output: a PapaResult carrying the reported errors and the
    header-keyed rows.
  - Console diagnostics emitted by the row loop are modelled as an explicit
    list of RowDiag values returned next to the parse result.
  - The MySQL storage layer is modelled as explicit state: the transactions
    table is a list of stored rows, DECIMAL(12,2) rounding is applied to the
    amount on insert, and the unique key over (account_number, booking_date,
    amount, counterpart_account, reference_number) raises a duplicate-entry
    outcome only when the nullable key columns are non-null, as MySQL does.
    The reference number is the one mapper field built without a null
    fallback: a blank transaction-number column yields the empty string
    (a real, key-comparable value) and an absent column yields the JS
    undefined, which the driver rejects at bind time as an ordinary error,
    before any key check; mysqlInsert models both.
    Generic per-row insert behaviour is a parameter (InsStep) so that theorems
    about the counter discipline hold for any storage outcome; mysqlInsert is
    the concrete instance.
-/

import Mathlib

set_option maxRecDepth 8192

/-! ## Character and string utilities (JS semantics) -/

/-- ASCII whitespace, the fragment of JS whitespace relevant to the data. -/
def isWS (c : Char) : Bool :=
  c = ' ' || c = '\t' || c = '\n' || c = '\r'

/-- Drop whitespace from both ends of a character list (JS String.trim). -/
def trimChars (cs : List Char) : List Char :=
  ((cs.dropWhile isWS).reverse.dropWhile isWS).reverse

/-- JS String.prototype.trim. -/
def jsTrim (s : String) : String :=
  String.mk (trimChars s.data)

/-- Does the character list start with the given pattern (JS startsWith). -/
def listStarts : List Char → List Char → Bool
  | _, [] => true
  | [], _ :: _ => false
  | c :: cs, p :: ps => c = p && listStarts cs ps

/-- JS String.prototype.split on the slash character. -/
def splitOnSlash : List Char → List (List Char)
  | [] => [[]]
  | c :: rest =>
    if c = '/' then [] :: splitOnSlash rest
    else
      match splitOnSlash rest with
      | g :: gs => (c :: g) :: gs
      | [] => [[c]]

/-- Value of a list of decimal digit characters, most significant first. -/
def digitsToNat (cs : List Char) : Nat :=
  cs.foldl (fun n c => 10 * n + (c.toNat - 48)) 0

/-- Hexadecimal digit test, as in JS parseInt with an 0x prefix. -/
def isHexDigit (c : Char) : Bool :=
  c.isDigit || ('a' ≤ c && c ≤ 'f') || ('A' ≤ c && c ≤ 'F')

/-- Value of one hexadecimal digit character. -/
def hexDigitVal (c : Char) : Nat :=
  if c.isDigit then c.toNat - 48
  else if 'a' ≤ c ∧ c ≤ 'f' then c.toNat - 87
  else c.toNat - 55

/-- Value of a list of hexadecimal digit characters. -/
def hexToNat (cs : List Char) : Nat :=
  cs.foldl (fun n c => 16 * n + hexDigitVal c) 0

/-- JS parseInt with no radix argument: skip leading whitespace, read an
optional sign, an optional 0x/0X hexadecimal marker, then the longest run of
digits of the selected base; none models NaN. -/
def jsParseInt (s : String) : Option Int :=
  let cs := s.data.dropWhile isWS
  let neg : Bool :=
    match cs with
    | '-' :: _ => true
    | _ => false
  let cs1 : List Char :=
    match cs with
    | '-' :: rest => rest
    | '+' :: rest => rest
    | _ => cs
  let body : Option Nat :=
    match cs1 with
    | '0' :: x :: rest =>
      if x = 'x' ∨ x = 'X' then
        let ds := rest.takeWhile isHexDigit
        if ds.isEmpty then none else some (hexToNat ds)
      else
        some (digitsToNat (('0' :: x :: rest).takeWhile Char.isDigit))
    | _ =>
      let ds := cs1.takeWhile Char.isDigit
      if ds.isEmpty then none else some (digitsToNat ds)
  body.map (fun n => if neg then -(n : Int) else (n : Int))

/-- JS Number.prototype.toString composed with padStart(2, 0), as applied to
the day and month components. -/
def pad2 (n : Int) : String :=
  let s := toString n
  if s.length < 2 then "0" ++ s else s

/-! ## Exact decimal values (the numbers parseFloat produces here) -/

/-- Exact decimal number num / 10 ^ exp.  Every amount the pipeline produces
is a finite decimal, so this represents the relevant JS numbers exactly. -/
structure Decimal where
  num : Int
  exp : Nat
deriving DecidableEq, Repr

/-- Rational value of a decimal. -/
def Decimal.toRat (d : Decimal) : ℚ :=
  (d.num : ℚ) / (10 : ℚ) ^ d.exp

/-- Value in cents after MySQL DECIMAL(12,2) conversion, rounding half away
from zero. -/
def Decimal.cents (d : Decimal) : Int :=
  let scaled : Int := d.num * 100
  let den : Int := 10 ^ d.exp
  if 0 ≤ scaled then (scaled * 2 + den) / (2 * den)
  else -(((-scaled) * 2 + den) / (2 * den))

/-- JS parseFloat restricted to the character set reachable after the
cleaning step of parseAmount (digits, comma, period, minus): an optional
leading minus, then the longest prefix of the form digits [ period digits ];
none models NaN.  Trailing characters are ignored, as parseFloat does. -/
def parseFloatCleaned (s : String) : Option Decimal :=
  let neg : Bool := s.data.head? == some '-'
  let cs : List Char := if s.data.head? == some '-' then s.data.tail else s.data
  let intDs := cs.takeWhile Char.isDigit
  let rest := cs.dropWhile Char.isDigit
  let fracDs : List Char :=
    if rest.head? == some '.' then rest.tail.takeWhile Char.isDigit else []
  if intDs.isEmpty ∧ fracDs.isEmpty then none
  else
    let mag : Int := (digitsToNat intDs * 10 ^ fracDs.length + digitsToNat fracDs : Nat)
    some ⟨if neg then -mag else mag, fracDs.length⟩

/-! ## Field normalizers (services/csvParser.js) -/

/-- Characters kept by the cleaning regex of parseAmount. -/
def keepAmountChar (c : Char) : Bool :=
  c.isDigit || c = ',' || c = '.' || c = '-'

/-- JS String.prototype.replace with a plain comma pattern: replace only the
first comma by a period. -/
def replaceFirstComma : List Char → List Char
  | [] => []
  | c :: rest => if c = ',' then '.' :: rest else c :: replaceFirstComma rest

/-- parseAmount from csvParser.js: null on blank input, otherwise strip every
character that is not a digit, comma, period or minus, replace the first
comma with a period, and run parseFloat. -/
def parseAmount (amountStr : String) : Option Decimal :=
  if jsTrim amountStr = "" then none
  else parseFloatCleaned (String.mk (replaceFirstComma (amountStr.data.filter keepAmountChar)))

/-- parseDate from csvParser.js: null on blank input, otherwise split on
slashes into exactly three components, read each with parseInt, reject NaN
components and day or month out of range, and render year-month-day with the
month and day padded to two digits. -/
def parseDate (dateStr : String) : Option String :=
  if jsTrim dateStr = "" then none
  else
    match splitOnSlash dateStr.data with
    | [p0, p1, p2] =>
      match jsParseInt (String.mk p0), jsParseInt (String.mk p1), jsParseInt (String.mk p2) with
      | some day, some month, some year =>
        if day < 1 ∨ day > 31 ∨ month < 1 ∨ month > 12 then none
        else some (toString year ++ "-" ++ pad2 month ++ "-" ++ pad2 day)
      | _, _, _ => none
    | _ => none

/-- parsePostalCodeCity from csvParser.js: the anchored pattern of leading
digits, whitespace, then the rest; on a match the digits are the postal code
and the trimmed rest is the city, otherwise the whole trimmed input is the
city; blank input gives neither. -/
def parsePostalCodeCity (s : String) : Option String × Option String :=
  if jsTrim s = "" then (none, none)
  else
    let cs := s.data
    let ds := cs.takeWhile Char.isDigit
    let rest := cs.dropWhile Char.isDigit
    let ws := rest.takeWhile isWS
    let rest2 := rest.dropWhile isWS
    if ds.isEmpty || ws.isEmpty then (none, some (jsTrim s))
    else if !rest2.isEmpty then (some (String.mk ds), some (jsTrim (String.mk rest2)))
    else if 2 ≤ ws.length then (some (String.mk ds), some "")
    else (none, some (jsTrim s))

/-- Lower-case hexadecimal digit, the character class of the Payconiq
reference pattern. -/
def isHexLower (c : Char) : Bool :=
  c.isDigit || ('a' ≤ c && c ≤ 'f')

/-- Try the pattern REF period, optional whitespace, colon, optional
whitespace, then a nonempty non-whitespace token, at this position. -/
def refTokenAt (cs : List Char) : Option String :=
  match cs with
  | 'R' :: 'E' :: 'F' :: '.' :: rest =>
    match rest.dropWhile isWS with
    | ':' :: rest2 =>
      let tok := (rest2.dropWhile isWS).takeWhile (fun c => !isWS c)
      if tok.isEmpty then none else some (String.mk tok)
    | _ => none
  | _ => none

/-- Try the pattern Payconiq, whitespace, then a nonempty lower-case
hexadecimal token, at this position. -/
def payconiqAt (cs : List Char) : Option String :=
  match cs with
  | 'P' :: 'a' :: 'y' :: 'c' :: 'o' :: 'n' :: 'i' :: 'q' :: rest =>
    let ws := rest.takeWhile isWS
    let tok := (rest.dropWhile isWS).takeWhile isHexLower
    if ws.isEmpty || tok.isEmpty then none else some (String.mk tok)
  | _ => none

/-- Scan left to right for the first position where the pattern matches, as
an unanchored regular expression search does. -/
def scanFor (tryAt : List Char → Option String) : List Char → Option String
  | [] => none
  | c :: cs =>
    match tryAt (c :: cs) with
    | some r => some r
    | none => scanFor tryAt cs

/-- extractReference from csvParser.js: first a REF colon token, then a
Payconiq hexadecimal token, in that priority order. -/
def extractReference (description : String) : Option String :=
  match scanFor refTokenAt description.data with
  | some r => some r
  | none => scanFor payconiqAt description.data

deriving instance DecidableEq for Except

/-! ## Rows and the row mapper -/

/-- A header-keyed CSV record as Papa.parse produces with header mode on:
column names paired with raw field strings, in file column order. -/
structure Row where
  fields : List (String × String)
deriving DecidableEq, Repr

/-- Object property lookup: the value at a column name, if present. -/
def Row.get (r : Row) (k : String) : Option String :=
  (r.fields.find? (fun p => p.1 = k)).map (fun p => p.2)

/-- First field value in column order (Object.values followed by index 0). -/
def Row.firstValue (r : Row) : Option String :=
  r.fields.head?.map (fun p => p.2)

/-- Trimmed field access where both a missing column and a blank value give
none, matching how the mapper uses optional chaining, trim and falsiness. -/
def Row.getClean (r : Row) (k : String) : Option String :=
  match r.get k with
  | some v => if jsTrim v = "" then none else some (jsTrim v)
  | none => none

/-- Trimmed field access that keeps the JS distinction between an absent
column (undefined, modelled none) and a present but blank column (the empty
string, modelled some of the empty string). -/
def Row.getTrim (r : Row) (k : String) : Option String :=
  (r.get k).map jsTrim

/-- A canonical transaction, one per statement line. -/
structure Transaction where
  accountNumber : String
  statementNumber : Option String
  transactionNumber : Option String
  bookingDate : String
  valueDate : Option String
  counterpartAccount : Option String
  counterpartName : Option String
  counterpartAddress : Option String
  counterpartPostalCode : Option String
  counterpartCity : Option String
  transactionType : Option String
  amount : Decimal
  currency : String
  bic : Option String
  countryCode : Option String
  description : Option String
  /-- The only field the mapper builds without a null fallback: some holds
  the extracted reference or the raw trimmed transaction number (possibly
  the empty string), while none models the JS undefined that arises when
  the column is absent and no reference is extracted; an undefined bind
  parameter is rejected by the storage driver. -/
  referenceNumber : Option String
deriving DecidableEq, Repr

/-- parsePostalCodeCity applied to a possibly missing field. -/
def parsePostalCodeCityOpt : Option String → Option String × Option String
  | none => (none, none)
  | some s => parsePostalCodeCity s

/-- extractReference applied to a possibly missing description. -/
def extractReferenceOpt : Option String → Option String
  | none => none
  | some s => extractReference s

/-- parseTransactionRow from csvParser.js.  Rows lacking account number,
booking date string or amount string give ok none (a silent drop); a present
booking date failing parseDate, or then a present amount failing parseAmount,
throws, modelled as error with the exact message; otherwise the canonical
transaction is built.  The referenceNumber falls back to the raw trimmed
Transactienummer value without a null coalescing step, so a blank column
yields the empty string and an absent column yields undefined (none). -/
def parseTransactionRow (row : Row) : Except String (Option Transaction) :=
  match row.getClean "Rekening", row.getClean "Boekingsdatum", row.getClean "Bedrag" with
  | some acct, some bds, some ams =>
    match parseDate bds with
    | none => .error ("Invalid booking date: " ++ bds)
    | some bookingDate =>
      match parseAmount ams with
      | none => .error ("Invalid amount: " ++ ams)
      | some amount =>
        let statementNumber := row.getClean "Rekeninguittrekselnummer"
        let transactionNumber := row.getClean "Transactienummer"
        let counterpartAccount := row.getClean "Rekening tegenpartij"
        let counterpartName := row.getClean "Naam tegenpartij bevat"
        let counterpartAddress := row.getClean "Straat en nummer"
        let pcCity := parsePostalCodeCityOpt (row.getClean "Postcode en plaats")
        let transactionType := row.getClean "Transactie"
        let valueDate :=
          match row.getClean "Valutadatum" with
          | none => none
          | some v => parseDate v
        let currency := (row.getClean "Devies").getD "EUR"
        let bic := row.getClean "BIC"
        let countryCode := row.getClean "Landcode"
        let description := row.getClean "Mededelingen"
        let referenceNumber :=
          match extractReferenceOpt description with
          | some r => some r
          | none => row.getTrim "Transactienummer"
        .ok (some
          { accountNumber := acct
            statementNumber := statementNumber
            transactionNumber := transactionNumber
            bookingDate := bookingDate
            valueDate := valueDate
            counterpartAccount := counterpartAccount
            counterpartName := counterpartName
            counterpartAddress := counterpartAddress
            counterpartPostalCode := pcCity.1
            counterpartCity := pcCity.2
            transactionType := transactionType
            amount := amount
            currency := currency
            bic := bic
            countryCode := countryCode
            description := description
            referenceNumber := referenceNumber })
  | _, _, _ => .ok none

/-! ## The CSV parser loop (parseBelgianBankCSV) -/

/-- Output of the Papa.parse tokenizer as the source consumes it: reported
error messages and the data rows. -/
structure PapaResult where
  errors : List String
  data : List Row
deriving Repr

/-- Console diagnostics the row loop emits: a skipped row (no valid account
number) or a caught row-mapping error, each with its 1-based row number. -/
inductive RowDiag where
  | skipped (row : Nat)
  | rowError (row : Nat) (msg : String)
deriving DecidableEq, Repr

/-- The row at loop index i is blank when every field value trims to empty. -/
def rowIsBlank (r : Row) : Bool :=
  r.fields.all (fun p => jsTrim p.2 = "")

/-- The account value the loop inspects: the Rekening column if present and
nonempty, else the first field value. -/
def rowAccountCandidate (r : Row) : Option String :=
  match r.get "Rekening" with
  | some v => if v = "" then r.firstValue else some v
  | none => r.firstValue

/-- The loop keeps a row for mapping only when the account candidate exists
and starts with BE. -/
def accountBEok (r : Row) : Bool :=
  match rowAccountCandidate r with
  | some v => listStarts v.data ['B', 'E']
  | none => false

/-- One iteration of the row loop at 0-based index i: skip blank rows
silently, log and skip rows without a BE account, catch mapper errors as
diagnostics, collect mapped transactions. -/
def stepRow (i : Nat) (r : Row) : Option Transaction × List RowDiag :=
  if rowIsBlank r then (none, [])
  else if !accountBEok r then (none, [.skipped (i + 1)])
  else
    match parseTransactionRow r with
    | .error msg => (none, [.rowError (i + 1) msg])
    | .ok none => (none, [])
    | .ok (some t) => (some t, [])

/-- The row loop from index i: transactions in file order next to the
diagnostics stream. -/
def processRowsAux : Nat → List Row → List Transaction × List RowDiag
  | _, [] => ([], [])
  | i, r :: rs =>
    let step := stepRow i r
    let rest := processRowsAux (i + 1) rs
    (step.1.toList ++ rest.1, step.2 ++ rest.2)

/-- Overall result of parseBelgianBankCSV. -/
inductive ParseResult where
  | fail (error : String)
  | ok (transactions : List Transaction)
deriving DecidableEq, Repr

/-- Message of the zero-transaction failure. -/
def noValidTransactionsMsg : String :=
  "No valid transactions found in CSV file. Please check the file format."

/-- parseBelgianBankCSV from csvParser.js, from the point the tokenizer
output is consumed: fail on a tokenizer error, run the row loop, fail when no
transactions survive, otherwise succeed with the ordered transactions.  The
second component is the stream of console diagnostics. -/
def parseBelgianBankCSV (parsed : PapaResult) : ParseResult × List RowDiag :=
  match parsed.errors with
  | e :: _ => (.fail ("CSV parsing failed: " ++ e), [])
  | [] =>
    let res := processRowsAux 0 parsed.data
    if res.1.isEmpty then (.fail noValidTransactionsMsg, res.2)
    else (.ok res.1, res.2)

/-! ## Storage model and the upload orchestrator (routes/upload.js) -/

/-- import_logs.import_status values. -/
inductive ImportStatus where
  | pending
  | processing
  | completed
  | failed
deriving DecidableEq, Repr

/-- One import_logs row. -/
structure ImportLogRec where
  id : Nat
  filename : String
  fileHash : String
  totalRecords : Nat
  importedRecords : Nat
  skippedRecords : Nat
  errorRecords : Nat
  status : ImportStatus
  errorMessage : Option String
  importedAt : Nat
  completedAt : Option Nat
deriving DecidableEq, Repr

/-- One transactions table row: the inserted transaction with the amount
already converted to DECIMAL(12,2) cents, plus the file hash column. -/
structure StoredTxn where
  txn : Transaction
  amountCents : Int
  fileHash : String
deriving DecidableEq, Repr

/-- Build the stored row an INSERT produces. -/
def storeTxn (t : Transaction) (h : String) : StoredTxn :=
  ⟨t, t.amount.cents, h⟩

/-- SQL equality over two nullable unique-key columns: MySQL unique keys
never treat NULL as equal to anything. -/
def nullableEq (a b : Option String) : Bool :=
  match a, b with
  | some x, some y => x = y
  | _, _ => false

/-- Does inserting t collide with stored row s on the unique_transaction key
(account_number, booking_date, amount, counterpart_account,
reference_number)? -/
def conflictsWith (s : StoredTxn) (t : Transaction) : Bool :=
  s.txn.accountNumber = t.accountNumber &&
  s.txn.bookingDate = t.bookingDate &&
  s.amountCents = t.amount.cents &&
  nullableEq s.txn.counterpartAccount t.counterpartAccount &&
  nullableEq s.txn.referenceNumber t.referenceNumber

/-- Outcome of one row INSERT, as the route distinguishes them. -/
inductive InsertOutcome where
  | success
  | dupEntry
  | otherError (msg : String)
deriving DecidableEq, Repr

/-- A per-row insert behaviour: given the table, the transaction and the file
hash, an outcome and the new table. -/
def InsStep : Type :=
  List StoredTxn → Transaction → String → InsertOutcome × List StoredTxn

/-- The message of the TypeError the mysql2 driver raises when a bind
parameter is the JS undefined value; the error has no SQL code, so the route
counts it as an error row. -/
def undefinedBindMsg : String :=
  "Bind parameters must not contain undefined. To pass SQL NULL specify JS null"

/-- The MySQL behaviour of the INSERT as the route invokes it: the driver
first rejects an undefined bind parameter (the reference number is the only
field that can be undefined), then a unique-key collision raises a
duplicate-entry error, otherwise the stored row is appended. -/
def mysqlInsert : InsStep :=
  fun store t h =>
    if t.referenceNumber.isNone then (.otherError undefinedBindMsg, store)
    else if store.any (fun s => conflictsWith s t) then (.dupEntry, store)
    else (.success, store ++ [storeTxn t h])

/-- Counters and collected errors of the transaction loop. -/
structure ImportCounts where
  imported : Nat
  skipped : Nat
  errored : Nat
  errors : List (Nat × String)
deriving DecidableEq, Repr

/-- The per-transaction loop of the upload route from 0-based index i:
success increments imported, a duplicate-entry increments skipped, any other
error increments errored and records the 1-based row index with the
message. -/
def runImportLoop (ins : InsStep) (h : String) : Nat → List StoredTxn → List Transaction → ImportCounts × List StoredTxn
  | _, store, [] => (⟨0, 0, 0, []⟩, store)
  | i, store, t :: ts =>
    let step := ins store t h
    let rest := runImportLoop ins h (i + 1) step.2 ts
    match step.1 with
    | .success => ({ rest.1 with imported := rest.1.imported + 1 }, rest.2)
    | .dupEntry => ({ rest.1 with skipped := rest.1.skipped + 1 }, rest.2)
    | .otherError msg =>
      ({ rest.1 with errored := rest.1.errored + 1, errors := (i + 1, msg) :: rest.1.errors }, rest.2)

/-- JSON serialization of the stored error sample. -/
def serializeErrors (es : List (Nat × String)) : String :=
  "[" ++ String.intercalate "," (es.map (fun e => "\x7b\"row\":" ++ toString e.1 ++ ",\"error\":\"" ++ e.2 ++ "\"\x7d")) ++ "]"

/-- Database state: the import_logs table, the transactions table, the next
auto-increment id and the clock used for timestamp columns. -/
structure DBState where
  importLogs : List ImportLogRec
  transactions : List StoredTxn
  nextLogId : Nat
  now : Nat
deriving DecidableEq, Repr

/-- The import_logs row the route INSERTs before parsing, with the schema
defaults for the remaining columns. -/
def freshLog (db : DBState) (filename fileHash : String) : ImportLogRec :=
  { id := db.nextLogId
    filename := filename
    fileHash := fileHash
    totalRecords := 0
    importedRecords := 0
    skippedRecords := 0
    errorRecords := 0
    status := .processing
    errorMessage := none
    importedAt := db.now
    completedAt := none }

/-- UPDATE import_logs WHERE id matches. -/
def updateLogs (logs : List ImportLogRec) (id : Nat) (f : ImportLogRec → ImportLogRec) : List ImportLogRec :=
  logs.map (fun l => if l.id = id then f l else l)

/-- The response of the upload route, as the HTTP layer distinguishes the
cases: the 409 duplicate-file rejection carrying the original import
timestamp, the 400 parse failure, or the success summary with the first five
errors. -/
inductive UploadResponse where
  | duplicateFile (importedAt : Nat)
  | parseFailure (error : String)
  | success (totalRecords imported skipped errors : Nat) (errorList : List (Nat × String))
deriving DecidableEq, Repr

/-- The UPDATE the route performs on the import log when parsing fails. -/
def failLogUpdate (err : String) (l : ImportLogRec) : ImportLogRec :=
  { l with status := .failed, errorMessage := some err }

/-- The UPDATE the route performs on the import log after all rows were
attempted: counts, completed status, completion time, and the serialized
first ten errors if any. -/
def completeLogUpdate (tot : Nat) (counts : ImportCounts) (now : Nat) (l : ImportLogRec) : ImportLogRec :=
  { l with
    totalRecords := tot
    importedRecords := counts.imported
    skippedRecords := counts.skipped
    errorRecords := counts.errored
    status := .completed
    completedAt := some now
    errorMessage := if counts.errors.isEmpty then none else some (serializeErrors (counts.errors.take 10)) }

/-- The body of the upload route after the duplicate-file check found no
prior import of this hash. -/
def handleUploadFresh (tok : String → PapaResult) (ins : InsStep)
    (db : DBState) (filename content fileHash : String) : UploadResponse × DBState :=
  let logId := db.nextLogId
  let db1 : DBState :=
    { db with
      importLogs := db.importLogs ++ [freshLog db filename fileHash]
      nextLogId := db.nextLogId + 1 }
  match (parseBelgianBankCSV (tok content)).1 with
  | .fail err =>
    (.parseFailure err,
      { db1 with importLogs := updateLogs db1.importLogs logId (failLogUpdate err) })
  | .ok txns =>
    let run := runImportLoop ins fileHash 0 db1.transactions txns
    let counts := run.1
    (.success txns.length counts.imported counts.skipped counts.errored (counts.errors.take 5),
      { db1 with
        transactions := run.2
        importLogs := updateLogs db1.importLogs logId (completeLogUpdate txns.length counts db.now) })

/-- The POST upload route: hash the raw bytes, short-circuit on a prior
upload of the same hash with the original import timestamp, otherwise create
the processing log, parse, and either mark the log failed or run the
per-transaction loop and complete the log.  The hash function and the
tokenizer are the external collaborators, passed in explicitly. -/
def handleUpload (hashFn : String → String) (tok : String → PapaResult) (ins : InsStep)
    (db : DBState) (filename content : String) : UploadResponse × DBState :=
  match db.importLogs.find? (fun l => l.fileHash = hashFn content) with
  | some l => (.duplicateFile l.importedAt, db)
  | none => handleUploadFresh tok ins db filename content (hashFn content)

/-- Status of the import log a given file hash owns, if any. -/
def importLogStatus (db : DBState) (h : String) : Option ImportStatus :=
  (db.importLogs.find? (fun l => l.fileHash = h)).map (fun l => l.status)

/-- Error message column of the import log a given file hash owns, if any. -/
def importLogError (db : DBState) (h : String) : Option (Option String) :=
  (db.importLogs.find? (fun l => l.fileHash = h)).map (fun l => l.errorMessage)

/-! ## Derived predicates used in the statements -/

/-- A string is numeric in the plain sense: a nonempty run of decimal digits,
possibly after a single sign.  This follows the wording of the specification
for date components, independently of how the code reads them. -/
def numericStr (s : String) : Bool :=
  match s.data with
  | [] => false
  | '-' :: ds => !ds.isEmpty && ds.all Char.isDigit
  | '+' :: ds => !ds.isEmpty && ds.all Char.isDigit
  | ds => ds.all Char.isDigit

/-- The day, month and year of a slash-separated date string, each read with
JS parseInt, when the string has exactly three components and all three
parse. -/
def dateComponents (s : String) : Option (Int × Int × Int) :=
  match splitOnSlash s.data with
  | [p0, p1, p2] =>
    match jsParseInt (String.mk p0), jsParseInt (String.mk p1), jsParseInt (String.mk p2) with
    | some d, some m, some y => some (d, m, y)
    | _, _, _ => none
  | _ => none

/-- Does the row mapper throw on this row? -/
def rowErrB (r : Row) : Bool :=
  match parseTransactionRow r with
  | .error _ => true
  | .ok _ => false

/-- The row passes every structural check of the loop and of the mapper:
not blank, account candidate starts with BE, and the three essential fields
are present and nonblank. -/
def structOKb (r : Row) : Bool :=
  !rowIsBlank r && accountBEok r &&
  (r.getClean "Rekening").isSome && (r.getClean "Boekingsdatum").isSome && (r.getClean "Bedrag").isSome

/-- Every transaction of the list inserts successfully in order: its
reference number is defined (the bind parameters contain no undefined) and
it does not collide on the unique key with the table as it grows while the
list is inserted under the given file hash. -/
def insertsCleanly (h : String) : List StoredTxn → List Transaction → Bool
  | _, [] => true
  | store, t :: ts =>
    t.referenceNumber.isSome && !store.any (fun s => conflictsWith s t) &&
      insertsCleanly h (store ++ [storeTxn t h]) ts

/-! ## Concrete fixtures for the closed statements -/

/-- A minimal structurally valid row: account, booking date and amount. -/
def mkRow3 (d a : String) : Row :=
  ⟨[("Rekening", "BE10 0000 0000 0000"), ("Boekingsdatum", d), ("Bedrag", a)]⟩

/-- A structurally valid row that also carries a transaction number, so that
its reference number bind parameter is defined. -/
def mkRow4 (d a tn : String) : Row :=
  ⟨[("Rekening", "BE10 0000 0000 0000"), ("Boekingsdatum", d), ("Bedrag", a),
    ("Transactienummer", tn)]⟩

/-- A row that also carries a counterpart account and a transaction number,
so that the unique key of the stored transaction has no NULL column. -/
def mkRow5 (d a ca tn : String) : Row :=
  ⟨[("Rekening", "BE10 0000 0000 0000"), ("Boekingsdatum", d), ("Bedrag", a),
    ("Rekening tegenpartij", ca), ("Transactienummer", tn)]⟩

/-- Ten structurally valid rows, each with a transaction number, of which
exactly two (rows 3 and 7) carry an unparsable amount string. -/
def c1Rows : List Row :=
  [mkRow4 "01/01/2024" "10,00" "N1", mkRow4 "02/01/2024" "20,00" "N2",
   mkRow4 "03/01/2024" "abc" "N3", mkRow4 "04/01/2024" "40,00" "N4",
   mkRow4 "05/01/2024" "50,00" "N5", mkRow4 "06/01/2024" "60,00" "N6",
   mkRow4 "07/01/2024" "xyz" "N7", mkRow4 "08/01/2024" "80,00" "N8",
   mkRow4 "09/01/2024" "90,00" "N9", mkRow4 "10/01/2024" "100,00" "N10"]

/-- Tokenizer returning the ten-row file. -/
def c1Tok : String → PapaResult := fun _ => ⟨[], c1Rows⟩

/-- An empty database whose clock reads 5. -/
def dbEmpty5 : DBState := ⟨[], [], 1, 5⟩

/-- The transactions surviving the ten-row file. -/
def c1Ts : List Transaction := (processRowsAux 0 c1Rows).1

/-- The diagnostics of the ten-row file. -/
def c1Ds : List RowDiag := (processRowsAux 0 c1Rows).2

/-- A single well-formed row used by the idempotence fixture. -/
def c2Rows : List Row := [mkRow5 "05/01/2024" "10,50" "BE20 1111 2222 3333" "T100"]

/-- Tokenizer returning the single-row file. -/
def c2Tok : String → PapaResult := fun _ => ⟨[], c2Rows⟩

/-- Database state after the first import of the idempotence fixture. -/
def c2DB1 : DBState := (handleUpload id c2Tok mysqlInsert dbEmpty5 "a.csv" "C").2

/-- Five rows whose stored unique keys have no NULL column and are pairwise
distinct. -/
def c3Rows : List Row :=
  [mkRow5 "01/02/2024" "10,00" "BE20 1111 2222 3333" "T1",
   mkRow5 "02/02/2024" "20,00" "BE20 1111 2222 3333" "T2",
   mkRow5 "03/02/2024" "30,00" "BE20 1111 2222 3333" "T3",
   mkRow5 "04/02/2024" "40,00" "BE20 1111 2222 3333" "T4",
   mkRow5 "05/02/2024" "50,00" "BE20 1111 2222 3333" "T5"]

/-- Tokenizer returning the five-row file. -/
def c3Tok : String → PapaResult := fun _ => ⟨[], c3Rows⟩

/-- Database state after the first, fully successful import of the five-row
file under hash A. -/
def c3DB1 : DBState := (handleUpload id c3Tok mysqlInsert dbEmpty5 "a.csv" "A").2

/-- The five transactions of the five-row file. -/
def c3Ts : List Transaction :=
  match (parseBelgianBankCSV ⟨[], c3Rows⟩).1 with
  | .ok ts => ts
  | .fail _ => []

/-- The diagnostics of the five-row file. -/
def c3Ds : List RowDiag := (parseBelgianBankCSV ⟨[], c3Rows⟩).2

/-- A well-formed row, its parsed transaction being c6Good. -/
def c6RowA : Row := mkRow3 "05/01/2024" "10,50"

/-- A second well-formed row. -/
def c6RowB : Row := mkRow3 "06/01/2024" "20,50"

/-- A row whose booking date fails parseDate, so the mapper throws. -/
def c6RowBad : Row := mkRow3 "99/99/2024" "5,00"

/-- A row with account and booking date but no amount column: silently
dropped by the mapper. -/
def c8RowMissing : Row :=
  ⟨[("Rekening", "BE10 0000 0000 0000"), ("Boekingsdatum", "05/01/2024")]⟩

/-- A structurally complete row whose booking date string does not parse. -/
def c8RowBadDate : Row := mkRow3 "99/99/2024" "5,00"

/-- A metadata row: nonblank, but its account field does not start with
BE. -/
def c7RowMeta : Row := ⟨[("Rekening", ""), ("Boekingsdatum", "summary line")]⟩

/-- Tokenizer returning a file with only the metadata row. -/
def c7Tok : String → PapaResult := fun _ => ⟨[], [c7RowMeta]⟩

/-! ## Helper lemmas -/

theorem mem_dropWhile_of_not {α : Type} (p : α → Bool) {c : α} {cs : List α}
    (hc : c ∈ cs) (hp : p c = false) : c ∈ cs.dropWhile p := by
  induction cs with
  | nil => simp at hc
  | cons a as ih =>
    rw [List.dropWhile_cons]
    rcases List.mem_cons.mp hc with h | h
    · subst h
      simp [hp]
    · by_cases ha : p a = true
      · simpa [ha] using ih h
      · simp [ha, h]

theorem mem_trimChars {c : Char} {cs : List Char}
    (hc : c ∈ cs) (hp : isWS c = false) : c ∈ trimChars cs := by
  unfold trimChars
  rw [List.mem_reverse]
  exact mem_dropWhile_of_not isWS (List.mem_reverse.mpr (mem_dropWhile_of_not isWS hc hp)) hp

theorem trimChars_ne_nil {c : Char} {cs : List Char}
    (hc : c ∈ cs) (hp : isWS c = false) : trimChars cs ≠ [] := by
  intro h
  have hm := mem_trimChars hc hp
  rw [h] at hm
  simp at hm

theorem trimChars_all_ws {cs : List Char} (h : trimChars cs = []) :
    ∀ c ∈ cs, isWS c = true := by
  intro c hc
  by_contra hws
  exact trimChars_ne_nil hc (Bool.not_eq_true _ ▸ hws) h

theorem dropWhile_eq_self_of_not {α : Type} (p : α → Bool) {cs : List α}
    (h : ∀ c ∈ cs, p c = false) : cs.dropWhile p = cs := by
  cases cs with
  | nil => rfl
  | cons a as =>
    rw [List.dropWhile_cons, h a (by simp)]
    simp

theorem trimChars_eq_self {cs : List Char} (h : ∀ c ∈ cs, isWS c = false) :
    trimChars cs = cs := by
  unfold trimChars
  rw [dropWhile_eq_self_of_not isWS h]
  rw [dropWhile_eq_self_of_not isWS (fun c hc => h c (List.mem_reverse.mp hc))]
  exact List.reverse_reverse cs

theorem runImportLoop_total (ins : InsStep) (h : String) :
    ∀ (ts : List Transaction) (i : Nat) (store : List StoredTxn),
      (runImportLoop ins h i store ts).1.imported + (runImportLoop ins h i store ts).1.skipped
        + (runImportLoop ins h i store ts).1.errored = ts.length := by
  intro ts
  induction ts with
  | nil => intro i store; simp [runImportLoop]
  | cons t ts ih =>
    intro i store
    have hrec := ih (i + 1) (ins store t h).2
    rw [runImportLoop]
    cases hstep : (ins store t h).1 with
    | success => simp only [hstep]; simp; omega
    | dupEntry => simp only [hstep]; simp; omega
    | otherError msg => simp only [hstep]; simp; omega

theorem isNone_false_of_isSome {α : Type} {o : Option α} (h : o.isSome = true) :
    o.isNone = false := by
  cases o with
  | none => simp at h
  | some a => rfl

theorem conflictsWith_ref_defined {s : StoredTxn} {t : Transaction}
    (h : conflictsWith s t = true) : t.referenceNumber.isNone = false := by
  unfold conflictsWith at h
  simp only [Bool.and_eq_true] at h
  obtain ⟨_, href⟩ := h
  unfold nullableEq at href
  cases hr : t.referenceNumber with
  | some r => rfl
  | none =>
    rw [hr] at href
    cases s.txn.referenceNumber <;> simp at href

theorem runImportLoop_allSuccess (h : String) :
    ∀ (ts : List Transaction) (i : Nat) (store : List StoredTxn),
      insertsCleanly h store ts = true →
      runImportLoop mysqlInsert h i store ts =
        (⟨ts.length, 0, 0, []⟩, store ++ ts.map (fun t => storeTxn t h)) := by
  intro ts
  induction ts with
  | nil => intro i store _; simp [runImportLoop]
  | cons t ts ih =>
    intro i store hnc
    rw [insertsCleanly] at hnc
    simp only [Bool.and_eq_true] at hnc
    obtain ⟨⟨hsome, h1⟩, h2⟩ := hnc
    have hnone : t.referenceNumber.isNone = false := isNone_false_of_isSome hsome
    have hins : mysqlInsert store t h = (.success, store ++ [storeTxn t h]) := by
      unfold mysqlInsert
      rw [if_neg (by simp [hnone]), if_neg (by simpa using h1)]
    rw [runImportLoop]
    rw [hins, ih _ _ h2]
    simp

theorem runImportLoop_allDup (h : String) :
    ∀ (ts : List Transaction) (i : Nat) (store : List StoredTxn),
      ts.all (fun t => store.any (fun s => conflictsWith s t)) = true →
      runImportLoop mysqlInsert h i store ts = (⟨0, ts.length, 0, []⟩, store) := by
  intro ts
  induction ts with
  | nil => intro i store _; simp [runImportLoop]
  | cons t ts ih =>
    intro i store hall
    rw [List.all_cons, Bool.and_eq_true] at hall
    obtain ⟨h1, h2⟩ := hall
    have hnone : t.referenceNumber.isNone = false := by
      obtain ⟨s, hsmem, hsc⟩ := List.any_eq_true.mp h1
      exact conflictsWith_ref_defined hsc
    have hins : mysqlInsert store t h = (.dupEntry, store) := by
      unfold mysqlInsert
      rw [if_neg (by simp [hnone]), if_pos h1]
    rw [runImportLoop]
    rw [hins, ih _ _ h2]
    simp

theorem find?_append_of_none {α : Type} (p : α → Bool) {xs : List α} (ys : List α)
    (h : xs.find? p = none) : (xs ++ ys).find? p = ys.find? p := by
  induction xs with
  | nil => rfl
  | cons x xs ih =>
    rw [List.find?_eq_none] at h
    have hx : p x = false := by
      have := h x (by simp)
      simpa using this
    rw [List.cons_append, List.find?_cons, hx]
    apply ih
    rw [List.find?_eq_none]
    intro a ha
    exact h a (by simp [ha])

theorem find?_hash_after_import (logs : List ImportLogRec) (nl : ImportLogRec)
    (f : ImportLogRec → ImportLogRec)
    (hfh : ∀ l, (f l).fileHash = l.fileHash)
    (hmiss : logs.find? (fun l => l.fileHash = nl.fileHash) = none) :
    (updateLogs (logs ++ [nl]) nl.id f).find? (fun l => l.fileHash = nl.fileHash) = some (f nl) := by
  unfold updateLogs
  rw [List.map_append]
  rw [find?_append_of_none]
  · simp [hfh nl]
  · rw [List.find?_eq_none] at hmiss ⊢
    intro x hx
    obtain ⟨l, hl, rfl⟩ := List.mem_map.mp hx
    by_cases hid : l.id = nl.id
    · simp only [hid, if_pos rfl]
      simpa [hfh l] using hmiss l hl
    · simpa [hid] using hmiss l hl

theorem processRowsAux_append (xs : List Row) :
    ∀ (i : Nat) (ys : List Row),
      processRowsAux i (xs ++ ys) =
        ((processRowsAux i xs).1 ++ (processRowsAux (i + xs.length) ys).1,
         (processRowsAux i xs).2 ++ (processRowsAux (i + xs.length) ys).2) := by
  induction xs with
  | nil => intro i ys; simp [processRowsAux]
  | cons r rs ih =>
    intro i ys
    rw [List.cons_append, processRowsAux, processRowsAux, ih (i + 1) ys]
    simp [List.append_assoc]
    constructor
    · congr 2
      omega
    · congr 2
      omega

theorem parseTransactionRow_not_drop (r : Row)
    (h1 : (r.getClean "Rekening").isSome = true)
    (h2 : (r.getClean "Boekingsdatum").isSome = true)
    (h3 : (r.getClean "Bedrag").isSome = true) :
    parseTransactionRow r ≠ .ok none := by
  obtain ⟨a, ha⟩ := Option.isSome_iff_exists.mp h1
  obtain ⟨b, hb⟩ := Option.isSome_iff_exists.mp h2
  obtain ⟨c, hc⟩ := Option.isSome_iff_exists.mp h3
  unfold parseTransactionRow
  rw [ha, hb, hc]
  cases hd : parseDate b with
  | none => simp [hd]
  | some d =>
    cases hm : parseAmount c with
    | none => simp [hd, hm]
    | some m => simp [hd, hm]

theorem stepRow_of_structOK (i : Nat) (r : Row) (hs : structOKb r = true) :
    (∀ msg, parseTransactionRow r = .error msg → stepRow i r = (none, [.rowError (i + 1) msg])) ∧
    (∀ t, parseTransactionRow r = .ok (some t) → stepRow i r = (some t, [])) := by
  unfold structOKb at hs
  simp only [Bool.and_eq_true] at hs
  obtain ⟨⟨⟨⟨hnb, hbe⟩, hr1⟩, hr2⟩, hr3⟩ := hs
  have hnb2 : rowIsBlank r = false := by simpa using hnb
  constructor
  · intro msg hmsg
    unfold stepRow
    rw [hnb2, hbe, hmsg]
    simp
  · intro t ht
    unfold stepRow
    rw [hnb2, hbe, ht]
    simp

theorem processRows_struct_count :
    ∀ (rows : List Row) (i : Nat), rows.all structOKb = true →
      (processRowsAux i rows).1.length + (rows.filter rowErrB).length = rows.length := by
  intro rows
  induction rows with
  | nil => intro i _; simp [processRowsAux]
  | cons r rs ih =>
    intro i hall
    rw [List.all_cons, Bool.and_eq_true] at hall
    obtain ⟨h1, h2⟩ := hall
    have hrec := ih (i + 1) h2
    rw [processRowsAux]
    have hsr := stepRow_of_structOK i r h1
    unfold structOKb at h1
    simp only [Bool.and_eq_true] at h1
    obtain ⟨⟨⟨⟨hnb, hbe⟩, hg1⟩, hg2⟩, hg3⟩ := h1
    cases he : parseTransactionRow r with
    | error msg =>
      rw [hsr.1 msg he]
      have hf : rowErrB r = true := by unfold rowErrB; rw [he]
      simp [List.filter_cons, hf]
      omega
    | ok t? =>
      cases t? with
      | none => exact absurd he (parseTransactionRow_not_drop r hg1 hg2 hg3)
      | some t =>
        rw [hsr.2 t he]
        have hf : rowErrB r = false := by unfold rowErrB; rw [he]
        simp [List.filter_cons, hf]
        omega

theorem processRows_all_skipped :
    ∀ (rows : List Row) (i : Nat),
      rows.all (fun r => rowIsBlank r || !accountBEok r) = true →
      (processRowsAux i rows).1 = [] := by
  intro rows
  induction rows with
  | nil => intro i _; simp [processRowsAux]
  | cons r rs ih =>
    intro i hall
    rw [List.all_cons, Bool.and_eq_true] at hall
    obtain ⟨h1, h2⟩ := hall
    rw [processRowsAux]
    have hstep : (stepRow i r).1 = none := by
      unfold stepRow
      rw [Bool.or_eq_true] at h1
      rcases h1 with hb | hbe
      · rw [if_pos hb]
      · by_cases hb : rowIsBlank r = true
        · rw [if_pos hb]
        · rw [if_neg (by simpa using hb), if_pos hbe]
    rw [hstep, ih (i + 1) h2]
    simp

/-! ## Claim theorems -/

/-- Claim C9: in every import that reaches row processing, each parsed
transaction increments exactly one of the three counters, so imported +
skipped + errored equals the number of parsed transactions, which is the
totalRecords value of the returned summary.  This holds for every insert
behaviour of the storage layer. -/
theorem c9_counters_sum (hashFn : String → String) (tok : String → PapaResult) (ins : InsStep)
    (db : DBState) (fn content : String) (tot imp sk er : Nat) (el : List (Nat × String)) (db2 : DBState)
    (h : handleUpload hashFn tok ins db fn content = (.success tot imp sk er el, db2)) :
    imp + sk + er = tot ∧
    ∃ ts ds, parseBelgianBankCSV (tok content) = (.ok ts, ds) ∧ tot = ts.length := by
  unfold handleUpload at h
  cases hf : db.importLogs.find? (fun l => l.fileHash = hashFn content) with
  | some l =>
    rw [hf] at h
    simp at h
  | none =>
    rw [hf] at h
    unfold handleUploadFresh at h
    cases hp : (parseBelgianBankCSV (tok content)).1 with
    | fail err =>
      rw [hp] at h
      simp at h
    | ok ts =>
      rw [hp] at h
      simp only [Prod.mk.injEq, UploadResponse.success.injEq] at h
      obtain ⟨⟨htot, himp, hsk, her, _⟩, _⟩ := h
      constructor
      · rw [← htot, ← himp, ← hsk, ← her]
        exact runImportLoop_total ins (hashFn content) ts 0 db.transactions
      · refine ⟨ts, (parseBelgianBankCSV (tok content)).2, ?_, htot.symm⟩
        rw [← hp]

theorem freshLog_fileHash (db : DBState) (fn h : String) : (freshLog db fn h).fileHash = h := rfl

theorem freshLog_id (db : DBState) (fn h : String) : (freshLog db fn h).id = db.nextLogId := rfl

/-- Claim C2: importing the identical bytes twice yields exactly one
successful import and one duplicate-file rejection.  Whenever a first import
of previously unseen content succeeds, a second import of the same content
is rejected with the first import timestamp and changes nothing, for every
tokenizer and every insert behaviour of the second run: no parsing and no
row processing occurs. -/
theorem c2_second_import_rejected (hashFn : String → String)
    (tok1 tok2 : String → PapaResult) (ins1 ins2 : InsStep)
    (db : DBState) (fn1 fn2 content : String)
    (tot imp sk er : Nat) (el : List (Nat × String)) (db1 : DBState)
    (hfresh : db.importLogs.find? (fun l => l.fileHash = hashFn content) = none)
    (h1 : handleUpload hashFn tok1 ins1 db fn1 content = (.success tot imp sk er el, db1)) :
    handleUpload hashFn tok2 ins2 db1 fn2 content = (.duplicateFile db.now, db1) := by
  unfold handleUpload at h1
  rw [hfresh] at h1
  unfold handleUploadFresh at h1
  cases hp : (parseBelgianBankCSV (tok1 content)).1 with
  | fail err =>
    rw [hp] at h1
    simp at h1
  | ok ts =>
    rw [hp] at h1
    simp only [Prod.mk.injEq] at h1
    obtain ⟨_, hdb1⟩ := h1
    have hlogs : db1.importLogs =
        updateLogs (db.importLogs ++ [freshLog db fn1 (hashFn content)]) db.nextLogId
          (completeLogUpdate ts.length (runImportLoop ins1 (hashFn content) 0 db.transactions ts).1 db.now) := by
      rw [← hdb1]
    have hfind := find?_hash_after_import db.importLogs (freshLog db fn1 (hashFn content))
      (completeLogUpdate ts.length (runImportLoop ins1 (hashFn content) 0 db.transactions ts).1 db.now)
      (fun l => rfl)
      (by simpa only [freshLog_fileHash] using hfresh)
    simp only [freshLog_id, freshLog_fileHash] at hfind
    unfold handleUpload
    rw [hlogs, hfind]
    simp [completeLogUpdate, freshLog]

theorem handleUpload_ok_eq (hashFn : String → String) (tok : String → PapaResult) (ins : InsStep)
    (db : DBState) (fn content : String) (ts : List Transaction)
    (hfresh : db.importLogs.find? (fun l => l.fileHash = hashFn content) = none)
    (hp1 : (parseBelgianBankCSV (tok content)).1 = .ok ts) :
    handleUpload hashFn tok ins db fn content =
      (.success ts.length (runImportLoop ins (hashFn content) 0 db.transactions ts).1.imported
         (runImportLoop ins (hashFn content) 0 db.transactions ts).1.skipped
         (runImportLoop ins (hashFn content) 0 db.transactions ts).1.errored
         ((runImportLoop ins (hashFn content) 0 db.transactions ts).1.errors.take 5),
       { importLogs := updateLogs (db.importLogs ++ [freshLog db fn (hashFn content)]) db.nextLogId
           (completeLogUpdate ts.length (runImportLoop ins (hashFn content) 0 db.transactions ts).1 db.now)
         transactions := (runImportLoop ins (hashFn content) 0 db.transactions ts).2
         nextLogId := db.nextLogId + 1
         now := db.now }) := by
  unfold handleUpload
  rw [hfresh]
  unfold handleUploadFresh
  rw [hp1]

theorem handleUpload_fail_eq (hashFn : String → String) (tok : String → PapaResult) (ins : InsStep)
    (db : DBState) (fn content err : String)
    (hfresh : db.importLogs.find? (fun l => l.fileHash = hashFn content) = none)
    (hp1 : (parseBelgianBankCSV (tok content)).1 = .fail err) :
    handleUpload hashFn tok ins db fn content =
      (.parseFailure err,
       { importLogs := updateLogs (db.importLogs ++ [freshLog db fn (hashFn content)]) db.nextLogId
           (failLogUpdate err)
         transactions := db.transactions
         nextLogId := db.nextLogId + 1
         now := db.now }) := by
  unfold handleUpload
  rw [hfresh]
  unfold handleUploadFresh
  rw [hp1]

theorem importLogStatus_completed (db : DBState) (fn h : String) (tot : Nat)
    (counts : ImportCounts) (tr : List StoredTxn) (n2 n3 : Nat)
    (hfresh : db.importLogs.find? (fun l => l.fileHash = h) = none) :
    importLogStatus
      { importLogs := updateLogs (db.importLogs ++ [freshLog db fn h]) db.nextLogId
          (completeLogUpdate tot counts db.now)
        transactions := tr
        nextLogId := n2
        now := n3 } h = some .completed := by
  unfold importLogStatus
  have hfind := find?_hash_after_import db.importLogs (freshLog db fn h)
    (completeLogUpdate tot counts db.now) (fun l => rfl)
    (by simpa only [freshLog_fileHash] using hfresh)
  simp only [freshLog_id, freshLog_fileHash] at hfind
  simp only [hfind]
  rfl

theorem importLog_failed (db : DBState) (fn h err : String) (tr : List StoredTxn) (n2 n3 : Nat)
    (hfresh : db.importLogs.find? (fun l => l.fileHash = h) = none) :
    importLogStatus
      { importLogs := updateLogs (db.importLogs ++ [freshLog db fn h]) db.nextLogId (failLogUpdate err)
        transactions := tr
        nextLogId := n2
        now := n3 } h = some .failed ∧
    importLogError
      { importLogs := updateLogs (db.importLogs ++ [freshLog db fn h]) db.nextLogId (failLogUpdate err)
        transactions := tr
        nextLogId := n2
        now := n3 } h = some (some err) := by
  unfold importLogStatus importLogError
  have hfind := find?_hash_after_import db.importLogs (freshLog db fn h)
    (failLogUpdate err) (fun l => rfl)
    (by simpa only [freshLog_fileHash] using hfresh)
  simp only [freshLog_id, freshLog_fileHash] at hfind
  constructor
  · simp only [hfind]
    rfl
  · simp only [hfind]
    rfl

/-- Claim C3: a persistence failure with a duplicate-key conflict on the
unique_transaction tuple is counted as skipped, not as an error, and the
batch continues: re-importing a file whose five parsed transactions all
collide with stored rows yields imported 0, skipped 5, no errors, leaves the
transactions table unchanged and still completes the import log. -/
theorem c3_reimport_skipped (hashFn : String → String) (tok : String → PapaResult)
    (db : DBState) (fn content : String) (ts : List Transaction) (ds : List RowDiag)
    (hfresh : db.importLogs.find? (fun l => l.fileHash = hashFn content) = none)
    (hparse : parseBelgianBankCSV (tok content) = (.ok ts, ds))
    (hlen : ts.length = 5)
    (hdup : ts.all (fun t => db.transactions.any (fun s => conflictsWith s t)) = true) :
    (handleUpload hashFn tok mysqlInsert db fn content).1 = .success 5 0 5 0 [] ∧
    (handleUpload hashFn tok mysqlInsert db fn content).2.transactions = db.transactions ∧
    importLogStatus (handleUpload hashFn tok mysqlInsert db fn content).2 (hashFn content) = some .completed := by
  have hp1 : (parseBelgianBankCSV (tok content)).1 = .ok ts := by rw [hparse]
  have hloop := runImportLoop_allDup (hashFn content) ts 0 db.transactions hdup
  have hmain := handleUpload_ok_eq hashFn tok mysqlInsert db fn content ts hfresh hp1
  rw [hloop] at hmain
  rw [hmain]
  refine ⟨by simp [hlen], rfl, ?_⟩
  exact importLogStatus_completed db fn (hashFn content) ts.length ⟨0, ts.length, 0, []⟩
    db.transactions (db.nextLogId + 1) db.now hfresh

/-- Claim C7: when zero transactions survive (for instance a file with no
data rows, or none whose account field starts with BE), the parse fails with
the descriptive no-valid-transactions error, the import log is marked failed
with that message, and no transaction rows are persisted. -/
theorem c7_no_valid_transactions (hashFn : String → String) (tok : String → PapaResult)
    (ins : InsStep) (db : DBState) (fn content : String)
    (hfresh : db.importLogs.find? (fun l => l.fileHash = hashFn content) = none)
    (herr : (tok content).errors = [])
    (hrows : (tok content).data.all (fun r => rowIsBlank r || !accountBEok r) = true) :
    (parseBelgianBankCSV (tok content)).1 = .fail noValidTransactionsMsg ∧
    (handleUpload hashFn tok ins db fn content).1 = .parseFailure noValidTransactionsMsg ∧
    importLogStatus (handleUpload hashFn tok ins db fn content).2 (hashFn content) = some .failed ∧
    importLogError (handleUpload hashFn tok ins db fn content).2 (hashFn content) =
      some (some noValidTransactionsMsg) ∧
    (handleUpload hashFn tok ins db fn content).2.transactions = db.transactions := by
  have hempty := processRows_all_skipped (tok content).data 0 hrows
  have hp1 : (parseBelgianBankCSV (tok content)).1 = .fail noValidTransactionsMsg := by
    unfold parseBelgianBankCSV
    rw [herr]
    simp [hempty]
  have hmain := handleUpload_fail_eq hashFn tok ins db fn content noValidTransactionsMsg hfresh hp1
  rw [hmain]
  have hlog := importLog_failed db fn (hashFn content) noValidTransactionsMsg
    db.transactions (db.nextLogId + 1) db.now hfresh
  exact ⟨hp1, rfl, hlog.1, hlog.2, rfl⟩

/-- Counterexample to claim C1 as stated: ten structurally valid rows, each
with a transaction number so that every bind parameter is defined, two of
which carry unparsable amount strings, no duplicate-key overlaps, run against
a fresh database.  The returned summary is success with totalRecords 8 and
with imported 8, errored 0, and the returned error list is empty: the two bad
rows are dropped during parsing, so the summary does not report errored 2 and
the error list does not contain their row indices. -/
theorem c1_cex :
    c1Rows.length = 10 ∧
    c1Rows.all structOKb = true ∧
    (c1Rows.filter (fun r => ((r.getClean "Bedrag").bind parseAmount) = none)).length = 2 ∧
    insertsCleanly "F" [] c1Ts = true ∧
    (handleUpload id c1Tok mysqlInsert dbEmpty5 "a.csv" "F").1 = .success 8 8 0 0 [] ∧
    importLogStatus (handleUpload id c1Tok mysqlInsert dbEmpty5 "a.csv" "F").2 "F" = some .completed := by
  decide

/-- Claim C1 as amended: for every CSV whose ten rows all pass the structural
checks, with exactly two rows on which the row mapper throws (unparsable
amounts), where every surviving transaction inserts cleanly, meaning its
reference number is defined (a transaction-number column is present or a
reference is extracted from the description: an absent value would be an
undefined bind parameter, rejected by the driver and counted as an error
row) and there are no duplicate-key overlaps, the import returns a summary
with totalRecords 8, imported 8, skipped 0 and errored 0, the returned
error list is empty (the two bad rows are dropped at parse time and
reported only in the parser console diagnostics), and the import-log status
is completed, not failed. -/
theorem c1_import_summary (hashFn : String → String) (tok : String → PapaResult)
    (db : DBState) (fn content : String) (rows : List Row) (ts : List Transaction) (ds : List RowDiag)
    (htok : tok content = ⟨[], rows⟩)
    (hlen : rows.length = 10)
    (hstruct : rows.all structOKb = true)
    (hbad : (rows.filter rowErrB).length = 2)
    (hproc : processRowsAux 0 rows = (ts, ds))
    (hnc : insertsCleanly (hashFn content) db.transactions ts = true)
    (hfresh : db.importLogs.find? (fun l => l.fileHash = hashFn content) = none) :
    (handleUpload hashFn tok mysqlInsert db fn content).1 = .success 8 8 0 0 [] ∧
    importLogStatus (handleUpload hashFn tok mysqlInsert db fn content).2 (hashFn content) = some .completed := by
  have hts : ts.length = 8 := by
    have hcount := processRows_struct_count rows 0 hstruct
    rw [hproc] at hcount
    simp only at hcount
    omega
  have htsne : ts.isEmpty = false := by
    cases ts with
    | nil => simp at hts
    | cons a l => rfl
  have hp1 : (parseBelgianBankCSV (tok content)).1 = .ok ts := by
    rw [htok]
    unfold parseBelgianBankCSV
    simp [hproc, htsne]
  have hloop := runImportLoop_allSuccess (hashFn content) ts 0 db.transactions hnc
  have hmain := handleUpload_ok_eq hashFn tok mysqlInsert db fn content ts hfresh hp1
  rw [hloop] at hmain
  rw [hmain]
  refine ⟨by simp [hts], ?_⟩
  exact importLogStatus_completed db fn (hashFn content) ts.length ⟨ts.length, 0, 0, []⟩
    (db.transactions ++ ts.map (fun t => storeTxn t (hashFn content))) (db.nextLogId + 1) db.now hfresh

/-- Witness for the amended claim C1, instantiated at the concrete ten-row
file. -/
theorem c1_wit :
    (handleUpload id c1Tok mysqlInsert dbEmpty5 "a.csv" "F").1 = .success 8 8 0 0 [] ∧
    importLogStatus (handleUpload id c1Tok mysqlInsert dbEmpty5 "a.csv" "F").2 (id "F") = some .completed :=
  c1_import_summary id c1Tok dbEmpty5 "a.csv" "F" c1Rows c1Ts c1Ds rfl (by decide) (by decide)
    (by decide) rfl (by decide) rfl

/-- Witness for C2, instantiated at a concrete one-row file imported twice. -/
theorem c2_wit :
    handleUpload id c2Tok mysqlInsert c2DB1 "b.csv" "C" = (.duplicateFile 5, c2DB1) :=
  c2_second_import_rejected id c2Tok c2Tok mysqlInsert mysqlInsert dbEmpty5 "a.csv" "b.csv" "C"
    1 1 0 0 [] c2DB1 rfl (by decide)

/-- Witness for C9, instantiated at a concrete successful import. -/
theorem c9_wit :
    (1 : Nat) + 0 + 0 = 1 ∧
    ∃ ts ds, parseBelgianBankCSV (c2Tok "C") = (.ok ts, ds) ∧ 1 = ts.length :=
  c9_counters_sum id c2Tok mysqlInsert dbEmpty5 "a.csv" "C" 1 1 0 0 [] c2DB1 (by decide)

/-- Witness for C3, instantiated at the concrete five-row file re-imported
with different bytes after a successful first import. -/
theorem c3_wit :
    (handleUpload id c3Tok mysqlInsert c3DB1 "b.csv" "B").1 = .success 5 0 5 0 [] ∧
    (handleUpload id c3Tok mysqlInsert c3DB1 "b.csv" "B").2.transactions = c3DB1.transactions ∧
    importLogStatus (handleUpload id c3Tok mysqlInsert c3DB1 "b.csv" "B").2 (id "B") = some .completed :=
  c3_reimport_skipped id c3Tok c3DB1 "b.csv" "B" c3Ts c3Ds (by decide) (by decide) (by decide)
    (by decide)

/-- Witness for C7, instantiated at a file whose only row has no BE
account. -/
theorem c7_wit :
    (parseBelgianBankCSV (c7Tok "G")).1 = .fail noValidTransactionsMsg ∧
    (handleUpload id c7Tok mysqlInsert dbEmpty5 "a.csv" "G").1 = .parseFailure noValidTransactionsMsg ∧
    importLogStatus (handleUpload id c7Tok mysqlInsert dbEmpty5 "a.csv" "G").2 (id "G") = some .failed ∧
    importLogError (handleUpload id c7Tok mysqlInsert dbEmpty5 "a.csv" "G").2 (id "G") =
      some (some noValidTransactionsMsg) ∧
    (handleUpload id c7Tok mysqlInsert dbEmpty5 "a.csv" "G").2.transactions = dbEmpty5.transactions :=
  c7_no_valid_transactions id c7Tok mysqlInsert dbEmpty5 "a.csv" "G" rfl rfl (by decide)

/-- Claim C6: an error thrown by the row mapper on one row is caught by the
CSV parser, recorded in the diagnostics stream as the 1-based row index with
the message, and processing continues with the remaining rows, so no single
malformed row aborts the batch; the surviving transactions are exactly those
of the other rows, in file order. -/
theorem c6_row_error_isolated (i : Nat) (rows1 rows2 : List Row) (row : Row) (msg : String)
    (hb : rowIsBlank row = false)
    (ha : accountBEok row = true)
    (he : parseTransactionRow row = .error msg) :
    processRowsAux i (rows1 ++ row :: rows2) =
      ((processRowsAux i rows1).1 ++ (processRowsAux (i + rows1.length + 1) rows2).1,
       (processRowsAux i rows1).2 ++
         .rowError (i + rows1.length + 1) msg :: (processRowsAux (i + rows1.length + 1) rows2).2) := by
  have hstep : stepRow (i + rows1.length) row = (none, [.rowError (i + rows1.length + 1) msg]) := by
    unfold stepRow
    simp [hb, ha, he]
  rw [processRowsAux_append, processRowsAux, hstep]
  simp

/-- Witness for C6: a bad-date row between two good rows is recorded as row
error 2 and the two good rows survive in order. -/
theorem c6_wit :
    processRowsAux 0 ([c6RowA] ++ c6RowBad :: [c6RowB]) =
      ((processRowsAux 0 [c6RowA]).1 ++ (processRowsAux 2 [c6RowB]).1,
       (processRowsAux 0 [c6RowA]).2 ++
         .rowError 2 "Invalid booking date: 99/99/2024" :: (processRowsAux 2 [c6RowB]).2) :=
  c6_row_error_isolated 0 [c6RowA] [c6RowB] c6RowBad "Invalid booking date: 99/99/2024"
    (by decide) (by decide) (by decide)

/-- Claim C8: the row mapper returns null (a silent drop) exactly when the
account number, the booking-date string or the amount string is missing or
blank; a present booking-date string failing parseDate, or a present amount
string failing parseAmount, throws a row error with a descriptive message,
and the parser loop turns it into a diagnostic carrying the 1-based row index
while excluding the row from the output. -/
theorem c8_mapper_policy (row : Row) (i : Nat) :
    (parseTransactionRow row = .ok none ↔
      row.getClean "Rekening" = none ∨ row.getClean "Boekingsdatum" = none ∨
        row.getClean "Bedrag" = none) ∧
    (∀ acct bds ams,
      row.getClean "Rekening" = some acct →
      row.getClean "Boekingsdatum" = some bds →
      row.getClean "Bedrag" = some ams →
      (parseDate bds = none → parseTransactionRow row = .error ("Invalid booking date: " ++ bds)) ∧
      (∀ d, parseDate bds = some d → parseAmount ams = none →
        parseTransactionRow row = .error ("Invalid amount: " ++ ams))) ∧
    (∀ msg, rowIsBlank row = false → accountBEok row = true →
      parseTransactionRow row = .error msg →
      stepRow i row = (none, [.rowError (i + 1) msg])) := by
  refine ⟨⟨?_, ?_⟩, ?_, ?_⟩
  · intro h
    by_contra hcon
    push_neg at hcon
    obtain ⟨h1, h2, h3⟩ := hcon
    exact parseTransactionRow_not_drop row
      (Option.ne_none_iff_isSome.mp h1) (Option.ne_none_iff_isSome.mp h2)
      (Option.ne_none_iff_isSome.mp h3) h
  · intro h
    unfold parseTransactionRow
    cases hA : row.getClean "Rekening" <;>
      cases hB : row.getClean "Boekingsdatum" <;>
        cases hC : row.getClean "Bedrag" <;>
          simp_all
  · intro acct bds ams h1 h2 h3
    constructor
    · intro hd
      unfold parseTransactionRow
      rw [h1, h2, h3]
      simp [hd]
    · intro d hd hm
      unfold parseTransactionRow
      rw [h1, h2, h3]
      simp [hd, hm]
  · intro msg hbk hbe he
    unfold stepRow
    simp [hbk, hbe, he]

/-- Witness for C8: a row without an amount column is silently dropped, and a
complete row with a bad booking date is a reported row error. -/
theorem c8_wit :
    parseTransactionRow c8RowMissing = .ok none ∧
    parseTransactionRow c8RowBadDate = .error ("Invalid booking date: " ++ "99/99/2024") ∧
    stepRow 0 c8RowBadDate = (none, [.rowError 1 "Invalid booking date: 99/99/2024"]) := by
  refine ⟨?_, ?_, ?_⟩
  · exact (c8_mapper_policy c8RowMissing 0).1.mpr (Or.inr (Or.inr (by decide)))
  · exact ((c8_mapper_policy c8RowBadDate 0).2.1 "BE10 0000 0000 0000" "99/99/2024" "5,00"
      (by decide) (by decide) (by decide)).1 (by decide)
  · exact (c8_mapper_policy c8RowBadDate 0).2.2 "Invalid booking date: 99/99/2024"
      (by decide) (by decide) (by decide)

theorem data_mk (cs : List Char) : (String.mk cs).data = cs := rfl

theorem mk_eq_empty {cs : List Char} : String.mk cs = "" ↔ cs = [] := by
  constructor
  · intro h
    exact congrArg String.data h
  · intro h
    rw [h]

theorem keep_not_ws {c : Char} (h : keepAmountChar c = true) : isWS c = false := by
  by_contra hws
  rw [Bool.not_eq_false] at hws
  unfold isWS at hws
  simp only [Bool.or_eq_true, decide_eq_true_eq] at hws
  rcases hws with ((rfl | rfl) | rfl) | rfl <;> exact absurd h (by decide)

theorem filter_keep_no_ws (cs : List Char) :
    ∀ c ∈ cs.filter keepAmountChar, isWS c = false :=
  fun _ hc => keep_not_ws (List.of_mem_filter hc)

theorem jsTrim_eq_empty {s : String} : jsTrim s = "" ↔ trimChars s.data = [] := by
  unfold jsTrim
  exact mk_eq_empty

/-- Claim C4: parseAmount strips every character outside digits, comma,
period and minus, replaces the comma with a period, parses the result, and
returns null on empty input or a non-numeric result after cleaning: the four
sample values hold, blank input gives null, and the cleaning step makes
parseAmount invariant under removing the stripped characters. -/
theorem c4_parseAmount :
    (parseAmount "1234,56").map Decimal.toRat = some ((123456 : ℚ) / 100) ∧
    (parseAmount "-12,30").map Decimal.toRat = some ((-1230 : ℚ) / 100) ∧
    parseAmount "abc" = none ∧
    parseAmount "" = none ∧
    (∀ s, jsTrim s = "" → parseAmount s = none) ∧
    (∀ s, parseAmount (String.mk (s.data.filter keepAmountChar)) = parseAmount s) := by
  refine ⟨?_, ?_, by decide, by decide, ?_, ?_⟩
  · have h1 : parseAmount "1234,56" = some ⟨123456, 2⟩ := by decide
    rw [h1]
    norm_num [Decimal.toRat]
  · have h1 : parseAmount "-12,30" = some ⟨-1230, 2⟩ := by decide
    rw [h1]
    norm_num [Decimal.toRat]
  · intro s hb
    unfold parseAmount
    rw [if_pos hb]
  · intro s
    by_cases hb : jsTrim s = ""
    · have hall : ∀ c ∈ s.data, isWS c = true := trimChars_all_ws (jsTrim_eq_empty.mp hb)
      have hfil : s.data.filter keepAmountChar = [] := by
        rw [List.filter_eq_nil_iff]
        intro c hc
        intro hk
        have := keep_not_ws hk
        rw [hall c hc] at this
        exact absurd this (by simp)
      rw [hfil]
      have hrhs : parseAmount s = none := by
        unfold parseAmount
        rw [if_pos hb]
      rw [hrhs]
      decide
    · have hnws := filter_keep_no_ws s.data
      have htrim : trimChars (s.data.filter keepAmountChar) = s.data.filter keepAmountChar :=
        trimChars_eq_self hnws
      cases hfil : s.data.filter keepAmountChar with
      | nil =>
        have hlhs : parseAmount (String.mk ([] : List Char)) = none := by decide
        rw [hlhs]
        unfold parseAmount
        rw [if_neg hb, hfil]
        decide
      | cons c rest =>
        rw [hfil] at hnws htrim
        have hne : jsTrim (String.mk (c :: rest)) ≠ "" := by
          intro hcon
          rw [jsTrim_eq_empty, data_mk, htrim] at hcon
          simp at hcon
        unfold parseAmount
        rw [if_neg hne, if_neg hb]
        rw [data_mk]
        have hidem : (c :: rest).filter keepAmountChar = c :: rest := by
          rw [← hfil]
          exact List.filter_eq_self.mpr (fun a ha => List.of_mem_filter ha)
        rw [hidem, hfil]

/-- Witness for C4: blank input and strip-invariance at concrete strings. -/
theorem c4_wit :
    parseAmount "   " = none ∧
    parseAmount (String.mk (" 12,5 EUR".data.filter keepAmountChar)) = parseAmount " 12,5 EUR" :=
  ⟨c4_parseAmount.2.2.2.2.1 "   " (by decide), c4_parseAmount.2.2.2.2.2 " 12,5 EUR"⟩

/-- Counterexample to claim C5 as stated: the component 1a of the date
string 1a/1/2024 is not numeric, yet parseDate does not return null there,
because JS parseInt reads the leading integer of a component and ignores the
rest. -/
theorem c5_cex :
    parseDate "1a/1/2024" = some "2024-01-01" ∧
    (splitOnSlash "1a/1/2024".data).map String.mk = ["1a", "1", "2024"] ∧
    numericStr "1a" = false := by
  decide

theorem parseDate_eq (s : String) :
    parseDate s =
      if jsTrim s = "" then none
      else
        match dateComponents s with
        | some (d, m, y) =>
          if d < 1 ∨ d > 31 ∨ m < 1 ∨ m > 12 then none
          else some (toString y ++ "-" ++ pad2 m ++ "-" ++ pad2 d)
        | none => none := by
  unfold parseDate dateComponents
  by_cases hb : jsTrim s = ""
  · simp [hb]
  · rw [if_neg hb, if_neg hb]
    cases hsplit : splitOnSlash s.data with
    | nil => rfl
    | cons p0 t0 =>
      cases t0 with
      | nil => rfl
      | cons p1 t1 =>
        cases t1 with
        | nil => rfl
        | cons p2 t2 =>
          cases t2 with
          | nil =>
            cases hj0 : jsParseInt (String.mk p0) <;>
              cases hj1 : jsParseInt (String.mk p1) <;>
                cases hj2 : jsParseInt (String.mk p2) <;>
                  simp [hj0, hj1, hj2]
          | cons p3 t3 => rfl

/-- Claim C5 as amended: parseDate returns null exactly when the input is
blank, the component count differs from three, some slash component has no
leading integer under JS parseInt (which reads a leading integer and ignores
trailing characters), or the parsed day is outside 1 to 31 or the parsed
month outside 1 to 12; otherwise it returns the year as parsed, a dash, and
the month and day zero-padded to two digits; the three sample values hold. -/
theorem c5_parseDate (s : String) :
    (parseDate s = none ↔
      jsTrim s = "" ∨ dateComponents s = none ∨
        ∃ d m y, dateComponents s = some (d, m, y) ∧ (d < 1 ∨ d > 31 ∨ m < 1 ∨ m > 12)) ∧
    (∀ d m y, dateComponents s = some (d, m, y) →
      1 ≤ d → d ≤ 31 → 1 ≤ m → m ≤ 12 → jsTrim s ≠ "" →
      parseDate s = some (toString y ++ "-" ++ pad2 m ++ "-" ++ pad2 d)) ∧
    parseDate "29/02/2024" = some "2024-02-29" ∧
    parseDate "31/13/2024" = none ∧
    parseDate "1/1/2024" = some "2024-01-01" := by
  refine ⟨?_, ?_, by decide, by decide, by decide⟩
  · rw [parseDate_eq]
    by_cases hb : jsTrim s = ""
    · simp [hb]
    · rw [if_neg hb]
      cases hdc : dateComponents s with
      | none => simp [hb]
      | some t =>
        obtain ⟨d, m, y⟩ := t
        by_cases hr : d < 1 ∨ d > 31 ∨ m < 1 ∨ m > 12
        · constructor
          · intro _
            exact Or.inr (Or.inr ⟨d, m, y, rfl, hr⟩)
          · intro _
            simp [hr]
        · constructor
          · intro hsome
            simp [hr] at hsome
          · rintro (hcon | hcon | ⟨d2, m2, y2, heq2, hr2⟩)
            · exact absurd hcon hb
            · exact absurd hcon (by simp)
            · simp only [Option.some.injEq, Prod.mk.injEq] at heq2
              obtain ⟨hd2, hm2, hy2⟩ := heq2
              subst hd2
              subst hm2
              exact absurd hr2 hr
  · intro d m y hdc h1 h2 h3 h4 hb
    rw [parseDate_eq, if_neg hb, hdc]
    have hr : ¬(d < 1 ∨ d > 31 ∨ m < 1 ∨ m > 12) := by omega
    simp [hr]

/-- Witness for the amended claim C5 at a concrete date. -/
theorem c5_wit : parseDate "7/3/2024" = some (toString (2024 : Int) ++ "-" ++ pad2 3 ++ "-" ++ pad2 7) :=
  (c5_parseDate "7/3/2024").2.1 7 3 2024 (by decide) (by decide) (by decide) (by decide)
    (by decide) (by decide)

theorem takeWhile_append_all {α : Type} (p : α → Bool) {xs ys : List α}
    (hall : ∀ c ∈ xs, p c = true)
    (hys : ∀ c, ys.head? = some c → p c = false) :
    (xs ++ ys).takeWhile p = xs := by
  induction xs with
  | nil =>
    cases ys with
    | nil => rfl
    | cons y t =>
      simp [List.takeWhile_cons, hys y rfl]
  | cons x t ih =>
    simp only [List.cons_append, List.takeWhile_cons, hall x (by simp)]
    rw [ih (fun c hc => hall c (by simp [hc]))]
    simp

theorem dropWhile_append_all {α : Type} (p : α → Bool) {xs ys : List α}
    (hall : ∀ c ∈ xs, p c = true)
    (hys : ∀ c, ys.head? = some c → p c = false) :
    (xs ++ ys).dropWhile p = ys := by
  induction xs with
  | nil =>
    cases ys with
    | nil => rfl
    | cons y t =>
      simp [List.dropWhile_cons, hys y rfl]
  | cons x t ih =>
    simp only [List.cons_append, List.dropWhile_cons, hall x (by simp)]
    simp only [if_true]
    exact ih (fun c hc => hall c (by simp [hc]))

theorem replaceFirstComma_through {pre : List Char} (suf : List Char)
    (h : ∀ c ∈ pre, c ≠ ',') :
    replaceFirstComma (pre ++ ',' :: suf) = pre ++ '.' :: suf := by
  induction pre with
  | nil =>
    simp [replaceFirstComma]
  | cons c cs ih =>
    rw [List.cons_append, replaceFirstComma, if_neg (h c (by simp))]
    rw [ih (fun x hx => h x (by simp [hx]))]
    rfl

theorem parseFloatCleaned_shape (a b rest : List Char)
    (ha : ∀ c ∈ a, Char.isDigit c = true)
    (hbd : ∀ c ∈ b, Char.isDigit c = true)
    (hne : a ≠ [])
    (hrest : ∀ c, rest.head? = some c → Char.isDigit c = false) :
    parseFloatCleaned (String.mk (a ++ '.' :: (b ++ rest))) =
      some ⟨(digitsToNat a * 10 ^ b.length + digitsToNat b : Nat), b.length⟩ := by
  obtain ⟨c0, cs0, rfl⟩ : ∃ c0 cs0, a = c0 :: cs0 := by
    cases a with
    | nil => exact absurd rfl hne
    | cons x t => exact ⟨x, t, rfl⟩
  have hc0 : Char.isDigit c0 = true := ha c0 (by simp)
  have hc0m : c0 ≠ '-' := by
    intro hcon
    rw [hcon] at hc0
    exact absurd hc0 (by decide)
  have hdot : ∀ c : Char, ('.' :: (b ++ rest)).head? = some c → Char.isDigit c = false := by
    intro c hc
    simp only [List.head?_cons, Option.some.injEq] at hc
    rw [← hc]
    decide
  have htk : ((c0 :: cs0) ++ '.' :: (b ++ rest)).takeWhile Char.isDigit = c0 :: cs0 :=
    takeWhile_append_all Char.isDigit ha hdot
  have hdr : ((c0 :: cs0) ++ '.' :: (b ++ rest)).dropWhile Char.isDigit = '.' :: (b ++ rest) :=
    dropWhile_append_all Char.isDigit ha hdot
  have hfr : (b ++ rest).takeWhile Char.isDigit = b :=
    takeWhile_append_all Char.isDigit hbd hrest
  unfold parseFloatCleaned
  rw [data_mk]
  simp only [List.cons_append] at htk hdr ⊢
  have hhead : (c0 :: (cs0 ++ '.' :: (b ++ rest))).head? = some c0 := rfl
  rw [hhead]
  have hbeq : (some c0 == some '-') = false := by
    simp [hc0m]
  rw [hbeq]
  simp only [Bool.false_eq_true, if_false]
  rw [htk, hdr]
  simp only [List.head?_cons, beq_self_eq_true, if_true]
  simp only [List.tail_cons]
  rw [hfr]
  simp

/-- Claim C10: for an amount written with a period as thousands separator and
a comma as decimal separator, parseAmount returns the numeric prefix value,
not null and not the intended value: only the first comma is replaced by a
period, existing periods are kept, and the numeric parse consumes the longest
valid prefix, so every input of the form digits period digits comma digits
parses to the value before the second period, and in particular the sample
input gives 1.234. -/
theorem c10_thousands_sep :
    (∀ d1 d2 d3 : List Char, d1 ≠ [] →
      (∀ c ∈ d1, Char.isDigit c = true) →
      (∀ c ∈ d2, Char.isDigit c = true) →
      (∀ c ∈ d3, Char.isDigit c = true) →
      parseAmount (String.mk (d1 ++ '.' :: (d2 ++ ',' :: d3))) =
        some ⟨(digitsToNat d1 * 10 ^ d2.length + digitsToNat d2 : Nat), d2.length⟩) ∧
    (parseAmount "1.234,56").map Decimal.toRat = some ((1234 : ℚ) / 1000) := by
  constructor
  · intro d1 d2 d3 hne h1m h2m h3m
    have hkeep : ∀ c ∈ d1 ++ '.' :: (d2 ++ ',' :: d3), keepAmountChar c = true := by
      intro c hc
      simp only [List.mem_append, List.mem_cons] at hc
      rcases hc with hc | rfl | hc | rfl | hc
      · simp [keepAmountChar, h1m c hc]
      · decide
      · simp [keepAmountChar, h2m c hc]
      · decide
      · simp [keepAmountChar, h3m c hc]
    have hnws : ∀ c ∈ d1 ++ '.' :: (d2 ++ ',' :: d3), isWS c = false :=
      fun c hc => keep_not_ws (hkeep c hc)
    have hblank : jsTrim (String.mk (d1 ++ '.' :: (d2 ++ ',' :: d3))) ≠ "" := by
      intro hcon
      rw [jsTrim_eq_empty, data_mk, trimChars_eq_self hnws] at hcon
      cases d1 with
      | nil => exact absurd rfl hne
      | cons x t => simp at hcon
    have hpre : ∀ c ∈ d1 ++ '.' :: d2, c ≠ ',' := by
      intro c hc
      simp only [List.mem_append, List.mem_cons] at hc
      rcases hc with hc | rfl | hc
      · intro hcon
        rw [hcon] at hc
        exact absurd (h1m ',' hc) (by decide)
      · decide
      · intro hcon
        rw [hcon] at hc
        exact absurd (h2m ',' hc) (by decide)
    unfold parseAmount
    rw [if_neg hblank, data_mk]
    rw [List.filter_eq_self.mpr hkeep]
    rw [show d1 ++ '.' :: (d2 ++ ',' :: d3) = (d1 ++ '.' :: d2) ++ ',' :: d3 by simp]
    rw [replaceFirstComma_through d3 hpre]
    rw [show (d1 ++ '.' :: d2) ++ '.' :: d3 = d1 ++ '.' :: (d2 ++ '.' :: d3) by simp]
    have hrest : ∀ c : Char, ('.' :: d3).head? = some c → Char.isDigit c = false := by
      intro c hc
      simp only [List.head?_cons, Option.some.injEq] at hc
      rw [← hc]
      decide
    exact parseFloatCleaned_shape d1 d2 ('.' :: d3) h1m h2m hne hrest
  · have h1 : parseAmount "1.234,56" = some ⟨1234, 3⟩ := by decide
    rw [h1]
    norm_num [Decimal.toRat]

/-- Witness for C10 at the concrete digit lists of the sample input. -/
theorem c10_wit :
    parseAmount (String.mk (['1'] ++ '.' :: (['2', '3', '4'] ++ ',' :: ['5', '6']))) =
      some ⟨(digitsToNat ['1'] * 10 ^ 3 + digitsToNat ['2', '3', '4'] : Nat), 3⟩ :=
  c10_thousands_sep.1 ['1'] ['2', '3', '4'] ['5', '6'] (by decide) (by decide) (by decide)
    (by decide)
